import Mathlib

/-!
Verification of `media_viewer.py` (fstark/mediaviewer).

Shallow embedding notes:
- Python float expressions (`src_w / src_h`, `target_h / src_h`, `position *
  (total_frames - 1)`) are modelled by exact rational arithmetic; Python
  `int(x)` on a nonnegative value is truncation, i.e. the floor, modelled by
  natural-number division.  Python `//` on nonnegative ints is also `Nat`
  division.
- Images are modelled at the level the claims speak about: dimensions plus an
  optional solid fill colour.  Resampling (`Image.LANCZOS`) does not change
  dimensions and is not modelled further.
- The preview store `/tmp/mediaviewercache/previews/<md5>.<ext>` is modelled,
  for one fixed key, as an `Option` holding the file's decoded content.
- The HTTP range path models the byte-level string manipulation of
  `serve_media_by_id` (`replace('bytes=', '')`, `split('-')`, `int(...)`)
  on `List Char`.
-/

/-! ## Image geometry (`generate_preview`, lines 119-143, and
`resize_and_crop_frame`, lines 193-215; both contain the same arithmetic). -/

/-- Crop box as passed to PIL `Image.crop((left, top, right, bottom))`. -/
structure CropBox where
  left : Nat
  top : Nat
  right : Nat
  bottom : Nat
deriving DecidableEq, Repr

/-- The resize-then-crop plan computed by `generate_preview` /
`resize_and_crop_frame` for a source of size `w × h`: the dimensions passed to
`img.resize` and the box passed to `img.crop`.

Source, wide branch (`src_ratio > target_ratio`, i.e. `w/h > 320/200`, i.e.
`320*h < w*200` in exact arithmetic):
`new_w = int(src_w * (target_h / src_h))` = `w * 200 / h` (truncation),
`left = (new_w - target_w) // 2`, crop `(left, 0, left+320, 200)`.
Tall branch: `new_h = int(src_h * (target_w / src_w))` = `h * 320 / w`,
`top = (new_h - target_h) // 2`, crop `(0, top, 320, top+200)`. -/
def resize_crop_plan (w h : Nat) : (Nat × Nat) × CropBox :=
  if 320 * h < w * 200 then
    let newW := w * 200 / h
    let left := (newW - 320) / 2
    ((newW, 200), ⟨left, 0, left + 320, 200⟩)
  else
    let newH := h * 320 / w
    let top := (newH - 200) / 2
    ((320, newH), ⟨0, top, 320, top + 200⟩)

/-- Size of the image returned by PIL `crop` for a given box. -/
def crop_size (b : CropBox) : Nat × Nat :=
  (b.right - b.left, b.bottom - b.top)

/-- A raster frame: dimensions plus an optional solid fill colour
(`some c` for `Image.new('RGB', ..., color=c)`, `none` for decoded media). -/
structure RGBFrame where
  w : Nat
  h : Nat
  color : Option String
deriving DecidableEq, Repr

/-- Model of `resize_and_crop_frame` (lines 193-215): apply the resize/crop
plan to a frame; the output dimensions are those of the crop box. -/
def resize_and_crop_frame (f : RGBFrame) : RGBFrame :=
  let plan := resize_crop_plan f.w f.h
  ⟨(crop_size plan.2).1, (crop_size plan.2).2, f.color⟩

/-! ## Video frame sampling (`extract_video_frames`, lines 146-190). -/

/-- Model of the `frame_indices` computation of `extract_video_frames`, with
`num_frames = PREVIEW_FRAME_COUNT = 11`.  The input is the decoded
`total_frames = int(cap.get(cv2.CAP_PROP_FRAME_COUNT))`, an `Int` so that the
guard `total_frames <= 0` is modelled exactly.  `raise ValueError` is
`.error ()`.  In the sampling loop the code computes
`int((i / (num_frames - 1)) * (total_frames - 1))`: truncation of an exact
rational, i.e. `i * (total - 1) / 10` in `Nat` division. -/
def extract_frame_indices (total : Int) : Except Unit (List Nat) :=
  if total ≤ 0 then .error ()
  else if total = 1 then .ok [0]
  else if total < 11 then .ok (List.range total.toNat)
  else .ok ((List.range 11).map (fun i => i * (total.toNat - 1) / 10))

/-! ## Preview cache store (`MediaFile.get_preview`, lines 80-117, and the
generators it calls).  The store is the cached preview file for one key. -/

/-- An animated GIF as assembled by `generate_video_preview`: its frames. -/
structure GifImage where
  frames : List RGBFrame
deriving DecidableEq, Repr

/-- The placeholder frame built in the `except` branch of
`generate_video_preview` (line 248): `Image.new('RGB', (320, 200),
color='#333333')`. -/
def placeholder_frame : RGBFrame := ⟨320, 200, some "#333333"⟩

/-- Model of `generate_video_preview` (lines 218-249).  Its input is the
outcome of `extract_video_frames`: `.error ()` if opening/decoding raised, or
the list of decoded frames.  On success every frame is passed through
`resize_and_crop_frame` and the frames are assembled into a GIF; if extraction
raised, or produced no frames (`if not frames: raise`), the `except` branch
writes the single-frame solid placeholder instead.  The function returns the
GIF written to the preview path (it always writes one). -/
def generate_video_preview (extraction : Except Unit (List RGBFrame)) : GifImage :=
  match extraction with
  | .error _ => ⟨[placeholder_frame]⟩
  | .ok [] => ⟨[placeholder_frame]⟩
  | .ok fs => ⟨fs.map resize_and_crop_frame⟩

/-- Model of `generate_preview` (lines 119-143) for still images.  Input is
the decode outcome of `Image.open`; on failure the exception propagates and
nothing is written (`none`), on success the resized/cropped frame is written. -/
def generate_preview (decoded : Except Unit RGBFrame) : Option RGBFrame :=
  match decoded with
  | .error _ => none
  | .ok f => some (resize_and_crop_frame f)

/-- Model of `get_preview` (lines 80-97), video/GIF branch, for one key.
`store` is the content of `/tmp/mediaviewercache/previews/<md5>.gif` (`none`
if absent).  Returns the new store, the `(content_type, content)` result, and
the number of generator invocations made by this call.
Code shape: if the file does not exist, call `generate_video_preview` (which
always writes a file, catching its own errors); then, if the file exists,
read and return it. -/
def get_preview_video (store : Option GifImage) (extraction : Except Unit (List RGBFrame)) :
    Option GifImage × Option (String × GifImage) × Nat :=
  match store with
  | some g => (some g, some ("image/gif", g), 0)
  | none =>
    let g := generate_video_preview extraction
    (some g, some ("image/gif", g), 1)

/-- Model of `get_preview` (lines 98-117), still-image branch, for one key.
If the file does not exist, call `generate_preview` (exceptions are caught at
the call site, line 106); then, if the file exists, read and return it,
otherwise return `None`. -/
def get_preview_image (store : Option RGBFrame) (decoded : Except Unit RGBFrame) :
    Option RGBFrame × Option (String × RGBFrame) × Nat :=
  match store with
  | some f => (some f, some ("image/png", f), 0)
  | none =>
    match generate_preview decoded with
    | some f => (some f, some ("image/png", f), 1)
    | none => (none, none, 1)

/-- Model of `serve_media_preview` (lines 384-405) for an in-range id: a
`some` preview is served with status 200; `None` falls through to
`serve_placeholder`, which also responds 200 (with an SVG body). -/
def serve_media_preview (preview : Option (String × GifImage)) : Nat × Option (String × GifImage) :=
  match preview with
  | some p => (200, some p)
  | none => (200, none)

/-! ## Range file server (`serve_media_by_id`, lines 450-507, and
`serve_full_file`, lines 509-523).  Headers are lists of characters. -/

/-- Model of `range_header.replace('bytes=', '')`: remove every (leftmost,
non-overlapping) occurrence of the pattern `bytes=`. -/
def pyStripBytesEq : List Char → List Char
  | 'b' :: 'y' :: 't' :: 'e' :: 's' :: '=' :: rest => pyStripBytesEq rest
  | c :: rest => c :: pyStripBytesEq rest
  | [] => []

/-- Model of Python `s.split('-')`: split at every dash; `''.split('-')`
is `['']` and separators at the ends produce empty fields. -/
def pySplitDash : List Char → List (List Char)
  | [] => [[]]
  | c :: rest =>
    match pySplitDash rest with
    | [] => [[]]
    | f :: fs => if c = '-' then [] :: f :: fs else (c :: f) :: fs

/-- Base-10 value of a digit string (used only under all-digit hypotheses). -/
def digitsVal (l : List Char) : Nat :=
  l.foldl (fun a c => 10 * a + (c.toNat - 48)) 0

/-- Model of Python `int(s)` for the strings reaching it here: an optional
sign followed by a nonempty run of decimal digits parses; everything else
raises `ValueError` (`none`).  Python additionally strips whitespace and
allows underscore grouping, which no range header exercised by the claims
contains. -/
def pyInt? (l : List Char) : Option Int :=
  match l with
  | [] => none
  | c :: rest =>
    if c = '+' then
      if rest ≠ [] ∧ rest.all Char.isDigit then some (digitsVal rest) else none
    else if c = '-' then
      if rest ≠ [] ∧ rest.all Char.isDigit then some (-(digitsVal rest : Int)) else none
    else
      if (c :: rest).all Char.isDigit then some (digitsVal (c :: rest)) else none

/-- Model of the `try` block of lines 468-471: strip `bytes=`, split on `-`,
then `start = int(ranges[0]) if ranges[0] else 0` and
`end = int(ranges[1]) if ranges[1] else file_size - 1`.  A `ValueError` from
`int` or an `IndexError` from `ranges[1]` yields `none` (the `except` path).
Returns the pre-clamp `(start, end)` bounds. -/
def parse_range_bounds (h : List Char) (fileSize : Int) : Option (Int × Int) :=
  let ranges := pySplitDash (pyStripBytesEq h)
  match ranges.get? 0, ranges.get? 1 with
  | some r0, some r1 =>
    match (if r0 = [] then some 0 else pyInt? r0),
          (if r1 = [] then some (fileSize - 1) else pyInt? r1) with
    | some s, some e => some (s, e)
    | _, _ => none
  | _, _ => none

/-- Observable response of the range path: status, the
`Content-Range: bytes start-end/size` header if sent, whether
`Accept-Ranges: bytes` is sent, the `Content-Length` value, and the body. -/
structure RangeResponse where
  status : Nat
  contentRange : Option (Int × Int × Int)
  acceptRanges : Bool
  contentLength : Int
  body : List Nat
deriving DecidableEq, Repr

/-- Model of `serve_full_file` (lines 509-523): status 200,
`Accept-Ranges: bytes`, `Content-Length: file_size`, whole file as body. -/
def serve_full_file (content : List Nat) : RangeResponse :=
  { status := 200, contentRange := none, acceptRanges := true,
    contentLength := (content.length : Int), body := content }

/-- Model of `serve_media_by_id` (lines 450-507) for an in-range id whose
file is readable.  `content` is the file's bytes (`file_size = len`).
With no usable `Range` header (absent, empty — Python `if range_header:` is
false for the empty string — or raising in parse) the full file is served;
otherwise `start = max(0, min(start, file_size - 1))`,
`end = max(start, min(end, file_size - 1))`, and a 206 partial response is
sent whose body is `f.seek(start); f.read(end - start + 1)`. -/
def serve_media_by_id (content : List Nat) (rangeHeader : Option (List Char)) : RangeResponse :=
  let fileSize : Int := content.length
  match rangeHeader with
  | none => serve_full_file content
  | some rh =>
    if rh = [] then serve_full_file content
    else
      match parse_range_bounds rh fileSize with
      | none => serve_full_file content
      | some (s0, e0) =>
        let start := max 0 (min s0 (fileSize - 1))
        let stop := max start (min e0 (fileSize - 1))
        let len := stop - start + 1
        { status := 206, contentRange := some (start, stop, fileSize), acceptRanges := true,
          contentLength := len, body := (content.drop start.toNat).take len.toNat }

/-- The header shape the claims call syntactically valid:
`bytes=` followed by two (possibly empty) digit runs separated by one `-`. -/
def rangeHeaderOf (f1 f2 : List Char) : List Char :=
  'b' :: 'y' :: 't' :: 'e' :: 's' :: '=' :: (f1 ++ '-' :: f2)

/-- Decidable form of that validity: the header is `bytes=` followed by
digits and exactly one `-`. -/
def isValidRangeHeader (l : List Char) : Bool :=
  match l with
  | 'b' :: 'y' :: 't' :: 'e' :: 's' :: '=' :: rest =>
    rest.all (fun c => c.isDigit || c == '-') && rest.count '-' == 1
  | _ => false

/-! ## Catalog scan (`scan_for_media_files`, lines 1011-1048). -/

/-- One file encountered by `os.walk`: its full path (`os.path.join(root,
file)`), its basename (the loop variable `file`), and `os.path.getsize`. -/
structure FsEntry where
  path : String
  name : String
  size : Nat
deriving DecidableEq, Repr

/-- The extension set of line 1013. -/
def media_extensions : List String :=
  [".png", ".jpg", ".jpeg", ".gif", ".mp4", ".m4v"]

/-- Model of `any(file.lower().endswith(ext) for ext in media_extensions)`. -/
def hasMediaExt (name : String) : Bool :=
  media_extensions.any (fun ext => name.toLower.endsWith ext)

/-- Model of `scan_for_media_files`: walk entries in arbitrary order, skip
0-byte files, keep media extensions, then
`sorted(media_files, key=lambda mf: mf.path)`. -/
def scan_for_media_files (entries : List FsEntry) : List FsEntry :=
  (entries.filter (fun e => decide (e.size ≠ 0) && hasMediaExt e.name)).insertionSort
    (fun a b => a.path ≤ b.path)

/-! ## Concurrency model of `get_preview` for one key (lines 80-117).

The code takes no lock: each caller executes
`exists?` (line 85/103) — if absent, `generate` (line 88/105, modelled as one
atomic write of the preview file plus a generator-invocation count) — then
`read` (lines 91-95/108-112).  Two concurrent callers for the same key are
modelled as two threads interleaved by an explicit schedule. -/

/-- Program counter of one `get_preview` caller. -/
inductive SFPc
  | check
  | gen
  | readf
  | done
deriving DecidableEq, Repr

/-- One caller: program counter, the `(content_type, content)` it will
return (`result`), and whether it has executed the generator (`genned`,
bookkeeping for counting invocations). -/
structure SFThread where
  pc : SFPc
  result : Option Nat
  genned : Bool
deriving DecidableEq, Repr

/-- Shared state: the preview file for the key (`none` = absent) and the
total number of generator invocations, plus the two callers. -/
structure SFState where
  file : Option Nat
  genCount : Nat
  t0 : SFThread
  t1 : SFThread
deriving DecidableEq, Repr

/-- The (deterministic) generator output for the key. -/
def previewBytes : Nat := 1

/-- One atomic step of a caller against the shared file. -/
def stepThread (file : Option Nat) (genCount : Nat) (t : SFThread) :
    Option Nat × Nat × SFThread :=
  match t.pc with
  | .check => (file, genCount, { t with pc := if file.isSome then SFPc.readf else SFPc.gen })
  | .gen => (some previewBytes, genCount + 1, { t with pc := SFPc.readf, genned := true })
  | .readf => (file, genCount, { t with pc := SFPc.done, result := file })
  | .done => (file, genCount, t)

/-- Step the scheduled caller (`false` = thread 0, `true` = thread 1). -/
def stepState (s : SFState) (who : Bool) : SFState :=
  if who then
    match stepThread s.file s.genCount s.t1 with
    | (f, c, t) => { file := f, genCount := c, t0 := s.t0, t1 := t }
  else
    match stepThread s.file s.genCount s.t0 with
    | (f, c, t) => { file := f, genCount := c, t0 := t, t1 := s.t1 }

/-- Run a whole schedule. -/
def runSched : SFState → List Bool → SFState
  | s, [] => s
  | s, who :: rest => runSched (stepState s who) rest

/-- Both callers arrive for a never-before-generated key. -/
def initSF : SFState :=
  { file := none, genCount := 0,
    t0 := ⟨SFPc.check, none, false⟩, t1 := ⟨SFPc.check, none, false⟩ }

/-- Per-thread part of the interleaving invariant (`anyGen` is "some thread
has run the generator"). -/
def SFThreadOk (t : SFThread) (anyGen : Bool) : Prop :=
  (t.pc = SFPc.check → t.genned = false) ∧
  (t.pc = SFPc.gen → t.genned = false) ∧
  ((t.pc = SFPc.readf ∨ t.pc = SFPc.done) → anyGen = true) ∧
  (t.pc = SFPc.done → t.result = some previewBytes)

/-- Invariant of the two-caller interleaving. -/
def SFInv (s : SFState) : Prop :=
  s.genCount = s.t0.genned.toNat + s.t1.genned.toNat ∧
  s.file = (if s.t0.genned || s.t1.genned then some previewBytes else none) ∧
  SFThreadOk s.t0 (s.t0.genned || s.t1.genned) ∧
  SFThreadOk s.t1 (s.t0.genned || s.t1.genned)

/-! ## Spec-worded formulas, for comparison with the code models. -/

/-- Spec-worded geometry of claim C2 (refinement target, following the
claim's words, not the code): `newW = round(srcW * 200/srcH)` with centred
crop when `srcRatio > targetRatio`, else `newH = round(srcH * 320/srcW)`. -/
def C2ClaimHolds (w h : Nat) : Prop :=
  ((320 : ℚ) / 200 < (w : ℚ) / h →
    ((resize_crop_plan w h).1.1 : ℤ) = round ((w : ℚ) * (200 / (h : ℚ))) ∧
    (resize_crop_plan w h).2.left = ((resize_crop_plan w h).1.1 - 320) / 2) ∧
  (¬ (320 : ℚ) / 200 < (w : ℚ) / h →
    ((resize_crop_plan w h).1.2 : ℤ) = round ((h : ℚ) * (320 / (w : ℚ))) ∧
    (resize_crop_plan w h).2.top = ((resize_crop_plan w h).1.2 - 200) / 2)

/-- Spec-worded sampling formula of claim C3 (refinement target, following
the claim's words): `round((i/(N-1)) * (total-1))` with `N = 11`. -/
def C3ClaimFormula (total : Int) (i : Nat) : ℤ :=
  round ((i : ℚ) / ((11 : ℚ) - 1) * ((total : ℚ) - 1))

/-- Claim C3 at one frame count: the code's sampled index list has 11 entries
and its `i`-th entry is `round((i/10) * (total-1))`. -/
def C3ClaimHolds (total : Int) : Prop :=
  ∃ l, extract_frame_indices total = .ok l ∧ l.length = 11 ∧
    ∀ i (hi : i < l.length), (l.get ⟨i, hi⟩ : ℤ) = C3ClaimFormula total i

/-- The claim's pre-clamp start bound: missing start means 0. -/
def claimStart (f1 : List Char) : Int :=
  if f1 = [] then 0 else (digitsVal f1 : Int)

/-- The claim's pre-clamp end bound: missing end means `fileSize - 1`. -/
def claimEnd (f2 : List Char) (fs : Int) : Int :=
  if f2 = [] then fs - 1 else (digitsVal f2 : Int)

/-- The claim's clamped start: `clamp(start, 0, fileSize-1)`. -/
def clampedStart (f1 : List Char) (fs : Int) : Int :=
  max 0 (min (claimStart f1) (fs - 1))

/-- The claim's clamped end: `clamp(end, start, fileSize-1)`. -/
def clampedEnd (f1 f2 : List Char) (fs : Int) : Int :=
  max (clampedStart f1 fs) (min (claimEnd f2 fs) (fs - 1))

instance : IsTotal FsEntry (fun a b => a.path ≤ b.path) :=
  ⟨fun a b => le_total a.path b.path⟩

instance : IsTrans FsEntry (fun a b => a.path ≤ b.path) :=
  ⟨fun _ _ _ hab hbc => le_trans hab hbc⟩

/-! # Theorems -/

/-- Arithmetic of the centred width crop: the box fits in the resized image. -/
theorem crop_fit_320 (n : Nat) (h : 320 ≤ n) : (n - 320) / 2 + 320 ≤ n := by
  omega

/-- Arithmetic of the centred height crop: the box fits in the resized image. -/
theorem crop_fit_200 (n : Nat) (h : 200 ≤ n) : (n - 200) / 2 + 200 ≤ n := by
  omega

/-- C7: if frame extraction or decoding fails for the whole video (opening /
decoding raised, or no frame could be read), `generate_video_preview` emits a
single-frame 320x200 solid-colour placeholder, stores it under the asset's
key, and the preview request is answered with status 200 (`image/gif`), so no
error for this failure reaches the HTTP layer. -/
theorem C7_video_failure_placeholder :
    generate_video_preview (.error ()) = ⟨[placeholder_frame]⟩ ∧
    generate_video_preview (.ok []) = ⟨[placeholder_frame]⟩ ∧
    placeholder_frame.w = 320 ∧ placeholder_frame.h = 200 ∧
    placeholder_frame.color = some "#333333" ∧
    (GifImage.mk [placeholder_frame]).frames.length = 1 ∧
    (get_preview_video none (.error ())).1 = some ⟨[placeholder_frame]⟩ ∧
    serve_media_preview (get_preview_video none (.error ())).2.1 =
      (200, some ("image/gif", ⟨[placeholder_frame]⟩)) := by
  decide

/-- C6 counterexample: for a video asset the claim fails.  After a failed
generation the store does contain a published entry for the key (the
placeholder GIF), and the next `get_preview` call for the same key performs
zero generator invocations instead of invoking the generator again. -/
theorem C6_counterexample :
    (get_preview_video none (.error ())).1 = some ⟨[placeholder_frame]⟩ ∧
    (get_preview_video none (.error ())).1 ≠ none ∧
    (get_preview_video ((get_preview_video none (.error ())).1) (.error ())).2.2 = 0 := by
  decide

/-- C6 amended: negative results are never cached for still images — a
failed image generation publishes nothing and the next call invokes the
generator again — but for videos a failed generation publishes the
placeholder GIF under the key, and the next call returns it without invoking
the generator. -/
theorem C6_amended :
    (get_preview_image none (.error ())).1 = none ∧
    (get_preview_image none (.error ())).2.1 = none ∧
    (get_preview_image ((get_preview_image none (.error ())).1) (.error ())).2.2 = 1 ∧
    (get_preview_video none (.error ())).1 = some ⟨[placeholder_frame]⟩ ∧
    (get_preview_video ((get_preview_video none (.error ())).1) (.error ())).2.2 = 0 ∧
    (get_preview_video ((get_preview_video none (.error ())).1) (.error ())).2.1 =
      some ("image/gif", ⟨[placeholder_frame]⟩) := by
  decide

/-- C8: `extract_video_frames` frame selection for small frame counts:
`total <= 0` raises (`NoFrames`), `total == 1` samples exactly `[0]`, and
`1 < total < 11` samples exactly `0, 1, ..., total-1` in order, each index
exactly once. -/
theorem C8_small_counts (total : Int) :
    (total ≤ 0 → extract_frame_indices total = .error ()) ∧
    (total = 1 → extract_frame_indices total = .ok [0]) ∧
    (1 < total → total < 11 →
      ∃ l, extract_frame_indices total = .ok l ∧ l.length = total.toNat ∧
        ∀ i (hi : i < l.length), l.get ⟨i, hi⟩ = i) := by
  refine ⟨fun h0 => by simp [extract_frame_indices, h0], fun h1 => by subst h1; rfl, ?_⟩
  intro hlo hhi
  have h0 : ¬ total ≤ 0 := by omega
  have h1 : ¬ total = 1 := by omega
  refine ⟨List.range total.toNat, by simp [extract_frame_indices, h0, h1, hhi], by simp, ?_⟩
  intro i hi
  simp

/-- C8 witness: the three regimes at concrete frame counts -3, 1 and 5. -/
theorem C8_small_counts_witness :
    extract_frame_indices (-3) = .error () ∧
    extract_frame_indices 1 = .ok [0] ∧
    (∃ l, extract_frame_indices 5 = .ok l ∧ l.length = (5 : Int).toNat ∧
      ∀ i (hi : i < l.length), l.get ⟨i, hi⟩ = i) :=
  ⟨(C8_small_counts (-3)).1 (by norm_num),
   (C8_small_counts 1).2.1 rfl,
   (C8_small_counts 5).2.2 (by norm_num) (by norm_num)⟩

/-- C9: for every source frame of positive width and height the output of
the resize-and-crop pipeline is exactly 320 x 200, and the crop box lies
inside the resized image. -/
theorem C9_fixed_output (f : RGBFrame) (hw : 0 < f.w) (hh : 0 < f.h) :
    (resize_and_crop_frame f).w = 320 ∧ (resize_and_crop_frame f).h = 200 ∧
    (resize_crop_plan f.w f.h).2.right ≤ (resize_crop_plan f.w f.h).1.1 ∧
    (resize_crop_plan f.w f.h).2.bottom ≤ (resize_crop_plan f.w f.h).1.2 := by
  by_cases hb : 320 * f.h < f.w * 200
  · have h320 : 320 ≤ f.w * 200 / f.h := (Nat.le_div_iff_mul_le hh).mpr (le_of_lt hb)
    simp only [resize_and_crop_frame, resize_crop_plan, crop_size, if_pos hb]
    exact ⟨Nat.add_sub_cancel_left _ _, trivial, crop_fit_320 _ h320, le_refl _⟩
  · have h200 : 200 ≤ f.h * 320 / f.w := (Nat.le_div_iff_mul_le hw).mpr (by omega)
    simp only [resize_and_crop_frame, resize_crop_plan, crop_size, if_neg hb]
    exact ⟨trivial, Nat.add_sub_cancel_left _ _, le_refl _, crop_fit_200 _ h200⟩

/-- C9 witness: a concrete 7 x 3 source frame comes out 320 x 200. -/
theorem C9_fixed_output_witness :
    (resize_and_crop_frame ⟨7, 3, none⟩).w = 320 ∧
    (resize_and_crop_frame ⟨7, 3, none⟩).h = 200 := by
  have h := C9_fixed_output ⟨7, 3, none⟩ (by norm_num) (by norm_num)
  exact ⟨h.1, h.2.1⟩

/-- Truncating `src_w * (target_h / src_h)` computed exactly equals
`Nat` division: `int(w * (200 / h)) = w * 200 / h`. -/
theorem floor_w_scale (w h : Nat) : ⌊(w : ℚ) * (200 / (h : ℚ))⌋₊ = w * 200 / h := by
  have e : (w : ℚ) * (200 / (h : ℚ)) = ((w * 200 : ℕ) : ℚ) / ((h : ℕ) : ℚ) := by
    push_cast
    ring
  rw [e, Nat.floor_div_eq_div]

/-- Truncating `src_h * (target_w / src_w)` computed exactly equals
`Nat` division: `int(h * (320 / w)) = h * 320 / w`. -/
theorem floor_h_scale (w h : Nat) : ⌊(h : ℚ) * (320 / (w : ℚ))⌋₊ = h * 320 / w := by
  have e : (h : ℚ) * (320 / (w : ℚ)) = ((h * 320 : ℕ) : ℚ) / ((w : ℕ) : ℚ) := by
    push_cast
    ring
  rw [e, Nat.floor_div_eq_div]

/-- C2 amended: the image generator's branch test `srcRatio > targetRatio`
is exactly `320*h < w*200`, and on each branch the scaled dimension is the
floor (truncation, Python `int`), not the rounding, of `srcW * 200/srcH`
resp. `srcH * 320/srcW`, with the centred crop offsets of the claim. -/
theorem C2_amended (w h : Nat) (hw : 0 < w) (hh : 0 < h) :
    ((320 : ℚ) / 200 < (w : ℚ) / h ↔ 320 * h < w * 200) ∧
    (320 * h < w * 200 →
      (resize_crop_plan w h).1.1 = ⌊(w : ℚ) * (200 / (h : ℚ))⌋₊ ∧
      (resize_crop_plan w h).1.2 = 200 ∧
      (resize_crop_plan w h).2.left = ((resize_crop_plan w h).1.1 - 320) / 2 ∧
      (resize_crop_plan w h).2.top = 0) ∧
    (¬ 320 * h < w * 200 →
      (resize_crop_plan w h).1.2 = ⌊(h : ℚ) * (320 / (w : ℚ))⌋₊ ∧
      (resize_crop_plan w h).1.1 = 320 ∧
      (resize_crop_plan w h).2.top = ((resize_crop_plan w h).1.2 - 200) / 2 ∧
      (resize_crop_plan w h).2.left = 0) := by
  have hhq : (0 : ℚ) < (h : ℚ) := by exact_mod_cast hh
  refine ⟨?_, ?_, ?_⟩
  · rw [div_lt_div_iff₀ (by norm_num) hhq]
    exact_mod_cast Iff.rfl
  · intro hb
    simp only [resize_crop_plan, if_pos hb]
    exact ⟨(floor_w_scale w h).symm, trivial, trivial, trivial⟩
  · intro hb
    simp only [resize_crop_plan, if_neg hb]
    exact ⟨(floor_h_scale w h).symm, trivial, trivial, trivial⟩

/-- C2 witness: for a 7 x 3 source the wide branch applies and the resized
width is the floor value 466 = `int(7 * (200/3))`. -/
theorem C2_amended_witness :
    (resize_crop_plan 7 3).1.1 = ⌊((7 : ℕ) : ℚ) * (200 / ((3 : ℕ) : ℚ))⌋₊ ∧
    (resize_crop_plan 7 3).1.2 = 200 ∧
    (resize_crop_plan 7 3).2.left = ((resize_crop_plan 7 3).1.1 - 320) / 2 := by
  obtain ⟨-, hwide, -⟩ := C2_amended 7 3 (by norm_num) (by norm_num)
  obtain ⟨h1, h2, h3, -⟩ := hwide (by norm_num)
  exact ⟨h1, h2, h3⟩

/-- C2 counterexample: at a 7 x 3 source (`srcRatio = 7/3 > 1.6`) the code
computes `new_w = int(7 * 200/3) = 466`, but the claim's formula
`round(srcW * 200/srcH) = round(466.66...) = 467` disagrees, so the claim as
stated is false. -/
theorem C2_counterexample : ¬ C2ClaimHolds 7 3 := by
  intro hcl
  obtain ⟨hwide, -⟩ := hcl
  obtain ⟨h1, -⟩ := hwide (by norm_num)
  have e1 : (resize_crop_plan 7 3).1.1 = 466 := rfl
  have e2 : round (((7 : ℕ) : ℚ) * (200 / ((3 : ℕ) : ℚ))) = 467 := by
    norm_num [round_eq]
  rw [e1, e2] at h1
  norm_num at h1

/-- C3 amended: for `total ≥ 11` decodable frames, `extract_video_frames`
samples exactly 11 indices; the `i`-th is `int((i/10) * (total-1))`, i.e.
the floor (truncation), not the rounding, of `(i/(N-1)) * (total-1)`; the
sequence is non-decreasing, starts at exactly 0 and ends at exactly
`total-1`. -/
theorem C3_amended (total : Int) (htot : 11 ≤ total) :
    ∃ l, extract_frame_indices total = .ok l ∧ l.length = 11 ∧
      (∀ i (hi : i < l.length),
        l.get ⟨i, hi⟩ = i * (total.toNat - 1) / 10 ∧
        l.get ⟨i, hi⟩ = ⌊(i : ℚ) / ((11 : ℚ) - 1) * ((total : ℚ) - 1)⌋₊) ∧
      l.Sorted (· ≤ ·) ∧
      l.head? = some 0 ∧
      l.getLast? = some (total.toNat - 1) := by
  have h0 : ¬ total ≤ 0 := by omega
  have h1 : ¬ total = 1 := by omega
  have h2 : ¬ total < 11 := by omega
  have hcast : ((total.toNat : ℕ) : ℚ) = ((total : ℤ) : ℚ) := by
    exact_mod_cast congrArg (fun z : ℤ => (z : ℚ)) (Int.toNat_of_nonneg (by omega))
  have htn : 1 ≤ total.toNat := by omega
  refine ⟨(List.range 11).map (fun i => i * (total.toNat - 1) / 10),
    by simp [extract_frame_indices, h0, h1, h2], by simp, ?_, ?_, ?_, ?_⟩
  · intro i hi
    constructor
    · simp
    · have eform : (i : ℚ) / ((11 : ℚ) - 1) * ((total : ℚ) - 1) =
          ((i * (total.toNat - 1) : ℕ) : ℚ) / ((10 : ℕ) : ℚ) := by
        rw [← hcast]
        push_cast [Nat.cast_sub htn]
        ring
      rw [eform, Nat.floor_div_eq_div]
      simp
  · refine List.Pairwise.map _ ?_ (List.pairwise_lt_range 11)
    intro a b hab
    exact Nat.div_le_div_right (Nat.mul_le_mul_right _ (le_of_lt hab))
  · rw [show List.range 11 = [0, 1, 2, 3, 4, 5, 6, 7, 8, 9, 10] from rfl]
    simp
  · rw [show List.range 11 = [0, 1, 2, 3, 4, 5, 6, 7, 8, 9, 10] from rfl]
    simp [Nat.mul_div_cancel_left _ (by norm_num : 0 < 10)]

/-- C3 witness: the sampled indices at a 16-frame video. -/
theorem C3_amended_witness :
    ∃ l, extract_frame_indices 16 = .ok l ∧ l.length = 11 ∧
      (∀ i (hi : i < l.length),
        l.get ⟨i, hi⟩ = i * ((16 : Int).toNat - 1) / 10 ∧
        l.get ⟨i, hi⟩ = ⌊(i : ℚ) / ((11 : ℚ) - 1) * (((16 : Int) : ℚ) - 1)⌋₊) ∧
      l.Sorted (· ≤ ·) ∧
      l.head? = some 0 ∧
      l.getLast? = some ((16 : Int).toNat - 1) :=
  C3_amended 16 (by norm_num)

/-- C3 counterexample: for a 16-frame video the code's second sampled index
is `int(1.5) = 1`, but the claim's formula gives `round(1.5) = 2`, so the
claim as stated is false. -/
theorem C3_counterexample : ¬ C3ClaimHolds 16 := by
  intro hcl
  obtain ⟨l, hl, hlen, hall⟩ := hcl
  have hconc : extract_frame_indices 16 = .ok [0, 1, 3, 4, 6, 7, 9, 10, 12, 13, 15] := rfl
  have hli : l = [0, 1, 3, 4, 6, 7, 9, 10, 12, 13, 15] := by
    have h := hl.symm.trans hconc
    exact Except.ok.inj h
  subst hli
  have h2 := hall 1 (by norm_num)
  have e2 : C3ClaimFormula 16 1 = 2 := by
    norm_num [C3ClaimFormula, round_eq]
  rw [e2] at h2
  norm_num at h2

/-- C10: the catalog produced by `scan_for_media_files` is sorted in
ascending order of full path (so the stable integer id of each asset is its
rank in path order), it is a permutation of the walked entries filtered to
nonzero size and a media extension, and an entry is in the catalog exactly
when it was walked, has nonzero byte size, and its name ends
(case-insensitively) in one of `.png .jpg .jpeg .gif .mp4 .m4v`. -/
theorem C10_scan (entries : List FsEntry) :
    (scan_for_media_files entries).Sorted (fun a b => a.path ≤ b.path) ∧
    (scan_for_media_files entries).Perm
      (entries.filter (fun e => decide (e.size ≠ 0) && hasMediaExt e.name)) ∧
    ∀ e, e ∈ scan_for_media_files entries ↔
      (e ∈ entries ∧ e.size ≠ 0 ∧ hasMediaExt e.name = true) := by
  refine ⟨List.sorted_insertionSort _ _, List.perm_insertionSort _ _, ?_⟩
  intro e
  simp only [scan_for_media_files]
  rw [(List.perm_insertionSort _ _).mem_iff, List.mem_filter]
  simp [and_assoc]

/-- Helper for C4/C5: `replace('bytes=', '')` leaves a string without `b`
untouched. -/
theorem pyStripBytesEq_eq_self (l : List Char) (hb : ∀ c ∈ l, c ≠ 'b') :
    pyStripBytesEq l = l := by
  induction l with
  | nil => rfl
  | cons c t ih =>
    have hc : c ≠ 'b' := hb c (by simp)
    have ht : ∀ x ∈ t, x ≠ 'b' := fun x hx => hb x (by simp [hx])
    rw [pyStripBytesEq.eq_def]
    split
    · next heq =>
      exact absurd (List.head_eq_of_cons_eq heq) hc
    · next c2 rest2 heq =>
      obtain ⟨h1, h2⟩ := List.cons.inj heq
      subst h1
      subst h2
      rw [ih ht]
    · next heq => exact absurd heq (by simp)

/-- Helper for C4/C5: `split('-')` never returns an empty field list. -/
theorem pySplitDash_ne_nil (l : List Char) : pySplitDash l ≠ [] := by
  cases l with
  | nil => simp [pySplitDash]
  | cons c t =>
    simp only [pySplitDash]
    split
    · simp
    · split <;> simp

/-- Helper for C4/C5: splitting a dash-free string yields one field. -/
theorem pySplitDash_no_dash (l : List Char) (hd : ¬ '-' ∈ l) : pySplitDash l = [l] := by
  induction l with
  | nil => rfl
  | cons c t ih =>
    have hc : ¬ c = '-' := by
      intro he
      exact hd (by simp [he])
    have ht : ¬ '-' ∈ t := fun hx => hd (by simp [hx])
    simp only [pySplitDash]
    rw [ih ht]
    simp [hc]

/-- Helper for C4/C5: splitting at the first dash separates the first field. -/
theorem pySplitDash_append (f1 rest : List Char) (hd : ¬ '-' ∈ f1) :
    pySplitDash (f1 ++ '-' :: rest) = f1 :: pySplitDash rest := by
  induction f1 with
  | nil =>
    simp only [List.nil_append, pySplitDash]
    obtain ⟨f, fs, hffs⟩ := List.exists_cons_of_ne_nil (pySplitDash_ne_nil rest)
    rw [hffs]
    simp
  | cons c t ih =>
    have hc : ¬ c = '-' := by
      intro he
      exact hd (by simp [he])
    have ht : ¬ '-' ∈ t := fun hx => hd (by simp [hx])
    simp only [List.cons_append, pySplitDash, List.append_eq]
    rw [ih ht]
    simp [hc]

/-- Helper for C4: `int()` on a nonempty digit string returns its value. -/
theorem pyInt?_digits (l : List Char) (hne : l ≠ []) (hd : ∀ c ∈ l, c.isDigit) :
    pyInt? l = some (digitsVal l) := by
  cases l with
  | nil => exact absurd rfl hne
  | cons c t =>
    have hcd : c.isDigit = true := hd c (by simp)
    have hplus : ¬ c = '+' := by
      intro he
      subst he
      exact absurd hcd (by decide)
    have hminus : ¬ c = '-' := by
      intro he
      subst he
      exact absurd hcd (by decide)
    have hall : (c :: t).all Char.isDigit = true := List.all_eq_true.mpr hd
    simp [pyInt?, hplus, hminus, hall]

/-- Digit characters are not `b` and not `-`. -/
theorem digit_ne_b_dash (c : Char) (h : c.isDigit = true) : c ≠ 'b' ∧ c ≠ '-' := by
  refine ⟨?_, ?_⟩ <;> intro he <;> subst he <;> exact absurd h (by decide)

/-- Helper for C4: the whole parse of a syntactically valid header
`bytes=<digits?>-<digits?>` succeeds with the claim's default bounds. -/
theorem parse_range_valid (f1 f2 : List Char) (fs : Int)
    (h1 : ∀ c ∈ f1, c.isDigit) (h2 : ∀ c ∈ f2, c.isDigit) :
    parse_range_bounds (rangeHeaderOf f1 f2) fs = some (claimStart f1, claimEnd f2 fs) := by
  have hb1 : ∀ c ∈ f1 ++ '-' :: f2, c ≠ 'b' := by
    intro c hc
    rcases List.mem_append.mp hc with h | h
    · exact (digit_ne_b_dash c (h1 _ h)).1
    · rcases List.mem_cons.mp h with h | h
      · subst h
        decide
      · exact (digit_ne_b_dash c (h2 _ h)).1
  have hd1 : ¬ '-' ∈ f1 := fun hm => (digit_ne_b_dash _ (h1 _ hm)).2 rfl
  have hd2 : ¬ '-' ∈ f2 := fun hm => (digit_ne_b_dash _ (h2 _ hm)).2 rfl
  have hstrip : pyStripBytesEq (rangeHeaderOf f1 f2) = f1 ++ '-' :: f2 := by
    show pyStripBytesEq ('b' :: 'y' :: 't' :: 'e' :: 's' :: '=' :: (f1 ++ '-' :: f2)) = _
    rw [show pyStripBytesEq ('b' :: 'y' :: 't' :: 'e' :: 's' :: '=' :: (f1 ++ '-' :: f2)) =
        pyStripBytesEq (f1 ++ '-' :: f2) from rfl]
    exact pyStripBytesEq_eq_self _ hb1
  have hsplit : pySplitDash (pyStripBytesEq (rangeHeaderOf f1 f2)) = [f1, f2] := by
    rw [hstrip, pySplitDash_append f1 f2 hd1, pySplitDash_no_dash f2 hd2]
  simp only [parse_range_bounds, hsplit, List.get?]
  rcases eq_or_ne f1 [] with hf1 | hf1 <;> rcases eq_or_ne f2 [] with hf2 | hf2
  · simp [hf1, hf2, claimStart, claimEnd]
  · simp [hf1, hf2, pyInt?_digits _ hf2 h2, claimStart, claimEnd]
  · simp [hf1, hf2, pyInt?_digits _ hf1 h1, claimStart, claimEnd]
  · simp [hf1, hf2, pyInt?_digits _ hf1 h1, pyInt?_digits _ hf2 h2, claimStart, claimEnd]

/-- C4: for a nonempty file and any syntactically valid header
`bytes=<digits?>-<digits?>` (either bound may be missing: missing start means
0, missing end means `fileSize-1`), `serve_media_by_id` answers 206 with
`Content-Range: bytes start-end/fileSize` for the clamped bounds
(`start` clamped to `[0, fileSize-1]`, `end` to `[start, fileSize-1]`),
`Accept-Ranges: bytes`, and a body of exactly `end - start + 1` bytes. -/
theorem C4_valid_range (content : List Nat) (f1 f2 : List Char)
    (hpos : 0 < content.length)
    (h1 : ∀ c ∈ f1, c.isDigit) (h2 : ∀ c ∈ f2, c.isDigit) :
    (serve_media_by_id content (some (rangeHeaderOf f1 f2))).status = 206 ∧
    (serve_media_by_id content (some (rangeHeaderOf f1 f2))).contentRange =
      some (clampedStart f1 (content.length : Int),
        clampedEnd f1 f2 (content.length : Int), (content.length : Int)) ∧
    (serve_media_by_id content (some (rangeHeaderOf f1 f2))).acceptRanges = true ∧
    (serve_media_by_id content (some (rangeHeaderOf f1 f2))).contentLength =
      clampedEnd f1 f2 (content.length : Int) - clampedStart f1 (content.length : Int) + 1 ∧
    (serve_media_by_id content (some (rangeHeaderOf f1 f2))).body.length =
      (clampedEnd f1 f2 (content.length : Int) -
        clampedStart f1 (content.length : Int) + 1).toNat := by
  have hparse := parse_range_valid f1 f2 (content.length : Int) h1 h2
  have hne : ¬ rangeHeaderOf f1 f2 = [] := by simp [rangeHeaderOf]
  have hserve : serve_media_by_id content (some (rangeHeaderOf f1 f2)) =
      { status := 206,
        contentRange := some (clampedStart f1 (content.length : Int),
          clampedEnd f1 f2 (content.length : Int), (content.length : Int)),
        acceptRanges := true,
        contentLength := clampedEnd f1 f2 (content.length : Int) -
          clampedStart f1 (content.length : Int) + 1,
        body := (content.drop (clampedStart f1 (content.length : Int)).toNat).take
          (clampedEnd f1 f2 (content.length : Int) -
            clampedStart f1 (content.length : Int) + 1).toNat } := by
    simp only [serve_media_by_id]
    rw [if_neg hne, hparse]
    simp [clampedStart, clampedEnd]
  have hfs1 : (1 : Int) ≤ (content.length : Int) := by exact_mod_cast hpos
  have hs0 : 0 ≤ clampedStart f1 (content.length : Int) := le_max_left _ _
  have hs1 : clampedStart f1 (content.length : Int) ≤ (content.length : Int) - 1 :=
    max_le (by omega) (min_le_right _ _)
  have he0 : clampedStart f1 (content.length : Int) ≤
      clampedEnd f1 f2 (content.length : Int) := le_max_left _ _
  have he1 : clampedEnd f1 f2 (content.length : Int) ≤ (content.length : Int) - 1 :=
    max_le hs1 (min_le_right _ _)
  rw [hserve]
  refine ⟨rfl, rfl, rfl, rfl, ?_⟩
  simp only [List.length_take, List.length_drop]
  exact Nat.min_eq_left (by omega)

set_option maxRecDepth 10000 in
/-- C4 witness: `Range: bytes=900-2000` on a 1000-byte asset yields 206
with end clamped to 999 and a 100-byte body. -/
theorem C4_valid_range_witness :
    (serve_media_by_id (List.range 1000)
      (some (rangeHeaderOf ['9', '0', '0'] ['2', '0', '0', '0']))).status = 206 ∧
    (serve_media_by_id (List.range 1000)
      (some (rangeHeaderOf ['9', '0', '0'] ['2', '0', '0', '0']))).contentRange =
      some (900, 999, 1000) ∧
    (serve_media_by_id (List.range 1000)
      (some (rangeHeaderOf ['9', '0', '0'] ['2', '0', '0', '0']))).contentLength = 100 ∧
    (serve_media_by_id (List.range 1000)
      (some (rangeHeaderOf ['9', '0', '0'] ['2', '0', '0', '0']))).body.length = 100 := by
  obtain ⟨ha, hb, -, hd, he⟩ := C4_valid_range (List.range 1000) ['9', '0', '0']
    ['2', '0', '0', '0'] (by simp) (by decide) (by decide)
  refine ⟨ha, ?_, ?_, ?_⟩
  · rw [hb]
    decide
  · rw [hd]
    decide
  · rw [he]
    decide

/-- C5 counterexample: `bytes=1-2-3` is a malformed range header (it is not
of the form `bytes=start-end`), yet on a 5-byte asset the server answers 206
with a 2-byte partial body instead of degrading to a 200 full response, so
the claim as stated is false. -/
theorem C5_counterexample :
    isValidRangeHeader ['b', 'y', 't', 'e', 's', '=', '1', '-', '2', '-', '3'] = false ∧
    (serve_media_by_id [0, 1, 2, 3, 4]
      (some ['b', 'y', 't', 'e', 's', '=', '1', '-', '2', '-', '3'])).status = 206 ∧
    (206 : Nat) ≠ 200 ∧
    (serve_media_by_id [0, 1, 2, 3, 4]
      (some ['b', 'y', 't', 'e', 's', '=', '1', '-', '2', '-', '3'])).body ≠ [0, 1, 2, 3, 4] := by
  refine ⟨rfl, rfl, by decide, by decide⟩

/-- C5 amended: a `Range` header whose parse raises (non-numeric bound such
as `bytes=abc`, missing dash, or a comma from a multi-range request ending up
inside a bound, as in `bytes=0-10,20-30`) makes the server degrade to a full
200 response with the complete body and `Accept-Ranges: bytes`; no range
problem ever produces a status other than 200 or 206 (in particular no 4xx).
However a malformed header that still parses (for instance `bytes=1-2-3`)
is served as a range request with status 206. -/
theorem C5_amended (content : List Nat) (rh : List Char) :
    (parse_range_bounds rh (content.length : Int) = none →
      (serve_media_by_id content (some rh)).status = 200 ∧
      (serve_media_by_id content (some rh)).body = content ∧
      (serve_media_by_id content (some rh)).acceptRanges = true ∧
      (serve_media_by_id content (some rh)).contentLength = (content.length : Int)) ∧
    ((serve_media_by_id content (some rh)).status = 200 ∨
      (serve_media_by_id content (some rh)).status = 206) := by
  by_cases hrh : rh = []
  · subst hrh
    exact ⟨fun _ => ⟨rfl, rfl, rfl, rfl⟩, Or.inl rfl⟩
  · cases hp : parse_range_bounds rh (content.length : Int) with
    | none =>
      have hserve : serve_media_by_id content (some rh) = serve_full_file content := by
        simp only [serve_media_by_id]
        rw [if_neg hrh, hp]
      rw [hserve]
      exact ⟨fun _ => ⟨rfl, rfl, rfl, rfl⟩, Or.inl rfl⟩
    | some p =>
      obtain ⟨s0, e0⟩ := p
      have hstatus : (serve_media_by_id content (some rh)).status = 206 := by
        simp only [serve_media_by_id]
        rw [if_neg hrh, hp]
      exact ⟨fun hq => absurd hq (by simp), Or.inr hstatus⟩

/-- C5 witness: `bytes=abc` degrades to the full 200 response on a 3-byte
asset. -/
theorem C5_amended_witness :
    (serve_media_by_id [0, 1, 2]
      (some ['b', 'y', 't', 'e', 's', '=', 'a', 'b', 'c'])).status = 200 ∧
    (serve_media_by_id [0, 1, 2]
      (some ['b', 'y', 't', 'e', 's', '=', 'a', 'b', 'c'])).body = [0, 1, 2] ∧
    (serve_media_by_id [0, 1, 2]
      (some ['b', 'y', 't', 'e', 's', '=', 'a', 'b', 'c'])).acceptRanges = true := by
  obtain ⟨h, -⟩ := C5_amended [0, 1, 2] ['b', 'y', 't', 'e', 's', '=', 'a', 'b', 'c']
  obtain ⟨h1, h2, h3, -⟩ := h rfl
  exact ⟨h1, h2, h3⟩

/-- Helper for C1: the interleaving invariant holds initially. -/
theorem SFInv_init : SFInv initSF := by
  refine ⟨rfl, rfl, ?_, ?_⟩ <;>
    exact ⟨fun _ => rfl, fun h => by simp [initSF] at h, fun h => by simp [initSF] at h,
      fun h => by simp [initSF] at h⟩

/-- Helper for C1: each atomic step preserves the interleaving invariant. -/
theorem SFInv_step (s : SFState) (who : Bool) (h : SFInv s) : SFInv (stepState s who) := by
  obtain ⟨file, cnt, ⟨pc0, r0, g0⟩, ⟨pc1, r1, g1⟩⟩ := s
  obtain ⟨hcnt, hfile, ht0, ht1⟩ := h
  obtain ⟨ht0a, ht0b, ht0c, ht0d⟩ := ht0
  obtain ⟨ht1a, ht1b, ht1c, ht1d⟩ := ht1
  cases who <;> cases pc0 <;> cases pc1 <;> cases g0 <;> cases g1 <;>
    simp_all [stepState, stepThread, SFInv, SFThreadOk]

/-- Helper for C1: the invariant holds after any schedule. -/
theorem SFInv_run (sched : List Bool) (s : SFState) (h : SFInv s) :
    SFInv (runSched s sched) := by
  induction sched generalizing s with
  | nil => exact h
  | cons who rest ih => exact ih _ (SFInv_step s who h)

/-- C1 counterexample: `get_preview` takes no lock, so with the interleaving
in which both callers first run their existence check and then both generate,
two concurrent calls for the same never-before-generated key invoke the
generator twice, not exactly once; both callers do terminate. -/
theorem C1_counterexample :
    (runSched initSF [false, true, false, true, false, true]).t0.pc = SFPc.done ∧
    (runSched initSF [false, true, false, true, false, true]).t1.pc = SFPc.done ∧
    (runSched initSF [false, true, false, true, false, true]).genCount = 2 ∧
    (2 : Nat) ≠ 1 := by
  decide

/-- C1 amended: `get_preview` enforces no single-flight discipline — under
two concurrent calls for a missing key the generator may run once or twice
depending on the interleaving (and some interleavings, see the
counterexample, do run it twice) — but in every completed interleaving it
runs at least once and at most once per caller, and both callers return the
same preview bytes. -/
theorem C1_amended (sched : List Bool)
    (h0 : (runSched initSF sched).t0.pc = SFPc.done)
    (h1 : (runSched initSF sched).t1.pc = SFPc.done) :
    (runSched initSF sched).t0.result = some previewBytes ∧
    (runSched initSF sched).t1.result = some previewBytes ∧
    1 ≤ (runSched initSF sched).genCount ∧
    (runSched initSF sched).genCount ≤ 2 := by
  obtain ⟨hcnt, hfile, ht0, ht1⟩ := SFInv_run sched initSF SFInv_init
  have hone : ∀ b : Bool, b.toNat ≤ 1 := by decide
  refine ⟨ht0.2.2.2 h0, ht1.2.2.2 h1, ?_, ?_⟩
  · have hany := ht0.2.2.1 (Or.inr h0)
    rw [hcnt]
    have hor : (runSched initSF sched).t0.genned = true ∨
        (runSched initSF sched).t1.genned = true := by simpa using hany
    rcases hor with hx | hx <;> simp [hx]
  · rw [hcnt]
    have := hone (runSched initSF sched).t0.genned
    have := hone (runSched initSF sched).t1.genned
    omega

/-- C1 witness: a completed interleaving of the two callers, with both
results equal to the generator output and the generator run twice. -/
theorem C1_amended_witness :
    (runSched initSF [false, true, false, true, false, true]).t0.result = some previewBytes ∧
    (runSched initSF [false, true, false, true, false, true]).t1.result = some previewBytes ∧
    1 ≤ (runSched initSF [false, true, false, true, false, true]).genCount ∧
    (runSched initSF [false, true, false, true, false, true]).genCount ≤ 2 :=
  C1_amended [false, true, false, true, false, true] (by decide) (by decide)
